import Mathlib

/-!
# Local-Drive-X: verification of the client against its specification

Shallow embedding of the Local-Drive-X repository (a React front end for a
folder-scoped storage gateway).  JavaScript strings are embedded as `List Char`
where structural reasoning on characters is needed, and as Lean `String`
elsewhere.  Numeric JSON values are embedded as `Nat`.  The FastAPI backend
(`main.py`) is not part of the checked sources; where a claim depends on it the
corresponding definitions are modelled from the specification and are marked as
such in their doc comments.
-/

namespace JsStr

/-- Embedding of JavaScript `String.prototype.split(sep)` for a one-character
separator, over strings as `List Char`.  `split` of the empty string is the
one-element list holding the empty string, matching JavaScript. -/
def splitOnChar (sep : Char) : List Char → List (List Char)
  | [] => [[]]
  | c :: cs =>
    match splitOnChar sep cs with
    | [] => [[]]
    | g :: gs => if c = sep then [] :: g :: gs else (c :: g) :: gs

/-- Joining a list of segments with `/` — JavaScript `Array.prototype.join('/')`. -/
def joinSlash (l : List (List Char)) : List Char :=
  List.intercalate ['/'] l

/-- The hexadecimal digit characters used by percent-encoding. -/
def hexDigit (n : Nat) : Char :=
  "0123456789ABCDEF".toList.getD n '0'

/-- UTF-8 byte sequence of a character, as used by `encodeURIComponent`. -/
def utf8Bytes (n : Nat) : List Nat :=
  if n < 0x80 then [n]
  else if n < 0x800 then [0xC0 + n / 64, 0x80 + n % 64]
  else if n < 0x10000 then [0xE0 + n / 4096, 0x80 + n / 64 % 64, 0x80 + n % 64]
  else [0xF0 + n / 262144, 0x80 + n / 4096 % 64, 0x80 + n / 64 % 64, 0x80 + n % 64]

/-- A byte rendered as `%XX`. -/
def percentEncodeByte (b : Nat) : List Char :=
  ['%', hexDigit (b / 16), hexDigit (b % 16)]

/-- Characters `encodeURIComponent` leaves unescaped. -/
def isUnreservedURIChar (c : Char) : Bool :=
  c.isAlphanum || c = '-' || c = '_' || c = '.' || c = '!' || c = '~' ||
    c = '*' || c = '\'' || c = '(' || c = ')'

/-- Embedding of JavaScript `encodeURIComponent`. -/
def encodeURIComponent (s : List Char) : List Char :=
  s.flatMap fun c =>
    if isUnreservedURIChar c then [c]
    else (utf8Bytes c.toNat).flatMap percentEncodeByte

/-- The base64 alphabet used by `btoa`. -/
def base64Alphabet : List Char :=
  "ABCDEFGHIJKLMNOPQRSTUVWXYZabcdefghijklmnopqrstuvwxyz0123456789+/".toList

/-- The base64 digit for a 6-bit value. -/
def b64char (n : Nat) : Char := base64Alphabet.getD n 'A'

/-- Base64 encoding of a byte list (the encoding performed by `btoa`). -/
def base64Encode : List Nat → List Char
  | [] => []
  | [b1] => [b64char (b1 / 4), b64char (b1 % 4 * 16), '=', '=']
  | [b1, b2] => [b64char (b1 / 4), b64char (b1 % 4 * 16 + b2 / 16),
      b64char (b2 % 16 * 4), '=']
  | b1 :: b2 :: b3 :: rest =>
      b64char (b1 / 4) :: b64char (b1 % 4 * 16 + b2 / 16) ::
        b64char (b2 % 16 * 4 + b3 / 64) :: b64char (b3 % 64) :: base64Encode rest

/-- Embedding of `btoa`: base64 over the code points of a Latin-1 string. -/
def btoa (s : String) : String :=
  String.mk (base64Encode (s.toList.map Char.toNat))

end JsStr

/-! ## Data model shared by the two file-manager components -/

/-- `FileItem` as declared in `FileManagementPage.tsx` (`modified` is a Unix
timestamp and `type` the server-assigned category string). -/
structure FileItem where
  name : String
  path : String
  is_dir : Bool
  size : Nat
  modified : Nat
  type : String
deriving DecidableEq, Repr

/-- `StorageInfo` as declared in `FileManagementPage.tsx` (`percent` embedded
as a natural number; its exact numeric type is irrelevant to the claims). -/
structure StorageInfo where
  used : Nat
  total : Nat
  percent : Nat
deriving DecidableEq, Repr

/-- `BreadcrumbItem` as declared in `FileManagementPage.tsx`. -/
structure BreadcrumbItem where
  name : String
  path : String
deriving DecidableEq, Repr

/-- `FilesResponse` as declared in `FileManagementPage.tsx`. -/
structure FilesResponse where
  items : List FileItem
  current_path : String
  breadcrumbs : List BreadcrumbItem
  storage : StorageInfo
deriving DecidableEq, Repr

/-- Outcome of one `fetch` call for a download, as observed by the client:
the request succeeded, the server answered with a non-OK status, or the
request itself threw (network failure, blob failure, ...). -/
inductive DownloadOutcome where
  | ok
  | httpErr
  | netErr
deriving DecidableEq, Repr

/-- Outcome of one listing fetch: a parsed `FilesResponse`, or any failure
(non-OK status or thrown error — the code collapses both into one catch). -/
inductive FetchResult where
  | ok (data : FilesResponse)
  | err
deriving DecidableEq, Repr

namespace FileManagementPage

/-- The React state of `FileManagementPage` relevant to the claims (the
dialog/menu/view-mode booleans are omitted: no claim mentions them). -/
structure PageState where
  password : String
  authenticated : Bool
  items : List FileItem
  currentPath : String
  breadcrumbs : List BreadcrumbItem
  storage : StorageInfo
  message : String
deriving DecidableEq, Repr

/-- Initial state from the `useState` initializers. -/
def initialState : PageState :=
  { password := "", authenticated := false, items := [], currentPath := "",
    breadcrumbs := [], storage := ⟨0, 0, 0⟩, message := "" }

/-- Authorization header built inside `fetchFiles`:
`'Basic ' + btoa(`${pwd}:${pwd}`)`. -/
def fetchFilesAuthHeader (pwd : String) : String :=
  "Basic " ++ JsStr.btoa (pwd ++ ":" ++ pwd)

/-- Authorization header built inside the dropzone `onDrop` upload loop. -/
def onDropAuthHeader (password : String) : String :=
  "Basic " ++ JsStr.btoa (password ++ ":" ++ password)

/-- Authorization header built inside `handleFileSelect`. -/
def fileSelectAuthHeader (password : String) : String :=
  "Basic " ++ JsStr.btoa (password ++ ":" ++ password)

/-- Authorization header built inside `handleDownload`. -/
def downloadAuthHeader (password : String) : String :=
  "Basic " ++ JsStr.btoa (password ++ ":" ++ password)

/-- Request URL built inside `fetchFiles`:
`/api/files?path=${encodeURIComponent(path)}`. -/
def fetchFilesUrl (path : String) : String :=
  "/api/files?path=" ++ String.mk (JsStr.encodeURIComponent path.toList)

/-- State transition of `fetchFiles` for a given response.  On success every
listing field is replaced by the response and `authenticated` is set; on
failure only `message` is written (first the connection text, then — when the
page was not yet authenticated — the authentication text). -/
def fetchFiles (r : FetchResult) (s : PageState) : PageState :=
  match r with
  | .ok data =>
      { s with items := data.items, currentPath := data.current_path,
               breadcrumbs := data.breadcrumbs, storage := data.storage,
               authenticated := true, message := "" }
  | .err =>
      { s with message :=
          if s.authenticated then "Failed to load files. Please check your connection."
          else "Authentication failed. Please check your password." }

/-- Request URL of the upload `fetch` in both `onDrop` and `handleFileSelect`:
the literal `'/api/upload'` — the currently browsed path is not appended. -/
def uploadRequestUrl (currentPath : String) : String :=
  "/api/upload"

/-- One iteration of the upload loop of `onDrop` / `handleFileSelect`: the
file is attempted by one `fetch` inside its own try/catch, the success or
failure accumulator is incremented by the outcome, and the attempt is
recorded. -/
def uploadStep {α : Type} (acc : Nat × Nat × List α) (fo : α × Bool) :
    Nat × Nat × List α :=
  if fo.2 then (acc.1 + 1, acc.2.1, acc.2.2 ++ [fo.1])
  else (acc.1, acc.2.1 + 1, acc.2.2 ++ [fo.1])

/-- The shared per-file upload loop of `onDrop` and `handleFileSelect`: every
file in the list is attempted by one `fetch` inside its own try/catch, and the
accumulators count OK responses and failures.  Files are paired with the
outcome of their individual request; the returned triple is
`(successCount, failCount, attempted files in order)`. -/
def uploadLoop {α : Type} (files : List (α × Bool)) : Nat × Nat × List α :=
  files.foldl uploadStep ((0, 0, []) : Nat × Nat × List α)

/-- The status message template used when at least one file uploaded. -/
def uploadMessage (successCount failCount : Nat) : String :=
  toString successCount ++ " file(s) uploaded successfully" ++
    (if 0 < failCount then ", " ++ toString failCount ++ " failed" else "")

/-- The tail of `onDrop` / `handleFileSelect` after the loop: when at least one
file succeeded the message is set and `fetchFiles(password, currentPath)` is
issued (its result is `r`); otherwise the message is exactly `'Upload failed'`
and no fetch is issued.  The returned boolean records whether `fetchFiles` was
called. -/
def handleUploadBatch (files : List (String × Bool)) (r : FetchResult)
    (s : PageState) : PageState × Bool :=
  let res := uploadLoop files
  if 0 < res.1 then
    (fetchFiles r { s with message := uploadMessage res.1 res.2.1 }, true)
  else
    ({ s with message := "Upload failed" }, false)

/-- Request URL of `handleDownload`: `item.path` is interpolated verbatim
(without `encodeURIComponent`) after the endpoint. -/
def downloadRequestUrl (item : FileItem) : String :=
  "/api/download/" ++ item.path

/-- The relative path the client forwards to the server in a download request:
exactly `item.path`, unmodified. -/
def downloadForwardedPath (item : FileItem) : String :=
  item.path

/-- State transition of `handleDownload`: a non-OK response throws
`'Download failed'` and any thrown error lands in the same catch, which sets
the fixed message `'Download failed'`; a successful download leaves the state
untouched (the blob is saved via a temporary anchor element). -/
def handleDownload (item : FileItem) (o : DownloadOutcome) (s : PageState) :
    PageState :=
  match o with
  | .ok => s
  | .httpErr => { s with message := "Download failed" }
  | .netErr => { s with message := "Download failed" }

/-- Preview source URL used by `renderPreviewContent`:
`/api/preview/${selectedItem.path}`. -/
def previewSrc (item : FileItem) : String :=
  "/api/preview/" ++ item.path

/-- The rendering strategies `renderPreviewContent` can produce. -/
inductive PreviewRendering where
  | inlineImage (src : String)
  | inlinePdf (src : String)
  | inlineVideo (src : String)
  | inlineAudio (src : String)
  | downloadOnly
deriving DecidableEq, Repr

/-- The dispatch of `renderPreviewContent`: a `switch` on `selectedItem.type`
with cases `image`, `pdf`, `video`, `audio`, and a default branch that renders
`Preview not available for this file type` with a download button. -/
def renderPreviewContent (item : FileItem) : PreviewRendering :=
  match item.type with
  | "image" => .inlineImage (previewSrc item)
  | "pdf" => .inlinePdf (previewSrc item)
  | "video" => .inlineVideo (previewSrc item)
  | "audio" => .inlineAudio (previewSrc item)
  | _ => .downloadOnly

/-- The `/api/preview` URL a rendering strategy requests, when it requests
one: the fallback branch issues no preview request. -/
def previewRequestUrl : PreviewRendering → Option String
  | .inlineImage src => some src
  | .inlinePdf src => some src
  | .inlineVideo src => some src
  | .inlineAudio src => some src
  | .downloadOnly => none

/-- The context-menu condition guarding the Preview entry:
`!item.is_dir && ['image', 'pdf', 'audio', 'video'].includes(item.type)`. -/
def contextMenuShowsPreview (item : FileItem) : Bool :=
  !item.is_dir && ["image", "pdf", "audio", "video"].contains item.type

/-- The six-way category space of the spec. -/
inductive Category where
  | image
  | pdf
  | audio
  | video
  | text
  | other
deriving DecidableEq, Repr

/-- The category the client's dispatch assigns to a `type` string — the
`switch` structure shared by `getFileIcon` and `renderPreviewContent`: the
five named type strings are distinguished and everything else is the default
(`other`) branch. -/
def clientCategory (t : String) : Category :=
  match t with
  | "image" => .image
  | "pdf" => .pdf
  | "audio" => .audio
  | "video" => .video
  | "text" => .text
  | _ => .other

/-- The operations of the page that write React state, each paired with the
response of any network call it performs. -/
inductive Action where
  | setPassword (p : String)
  | login (r : FetchResult)
  | navigateToFolder (path : String) (r : FetchResult)
  | uploadBatch (files : List (String × Bool)) (r : FetchResult)
  | download (item : FileItem) (o : DownloadOutcome)
  | copyShareUrl

/-- One step of the page: the handler corresponding to each action,
translated from the component. -/
def step : Action → PageState → PageState
  | .setPassword p, s => { s with password := p }
  | .login r, s => if s.password = "" then s else fetchFiles r s
  | .navigateToFolder _ r, s => fetchFiles r s
  | .uploadBatch files r, s => (handleUploadBatch files r s).1
  | .download item o, s => handleDownload item o s
  | .copyShareUrl, s => { s with message := "URL copied to clipboard" }

end FileManagementPage

namespace EnhancedFileManager

/-- Authorization header memo:
`'Basic ' + btoa(`${password}:${password}`)`. -/
def authHeader (password : String) : String :=
  "Basic " ++ JsStr.btoa (password ++ ":" ++ password)

/-- The segments of the current path:
`currentPath.split('/').filter(Boolean)`. -/
def pathSegments (currentPath : List Char) : List (List Char) :=
  (JsStr.splitOnChar '/' currentPath).filter (fun s => !s.isEmpty)

/-- The breadcrumb trail: `['Home', ...currentPath.split('/').filter(Boolean)]`. -/
def breadcrumbs (currentPath : List Char) : List (List Char) :=
  "Home".toList :: pathSegments currentPath

/-- `handleFolderClick`: entering a folder appends its name to the current
path (with a separator unless the current path is the empty root). -/
def handleFolderClick (currentPath folderName : List Char) : List Char :=
  if currentPath = [] then folderName else currentPath ++ '/' :: folderName

/-- `navigateBreadcrumb(index)`: the new current path is
`segments.slice(0, index).join('/')` where index 0 is Home. -/
def navigateBreadcrumb (currentPath : List Char) (index : Nat) : List Char :=
  JsStr.joinSlash ((pathSegments currentPath).take index)

/-- Request URL of `handleDownload`:
`/api/download/${encodeURIComponent(pathParam)}` with
`pathParam = currentPath ? `${currentPath}/${fileName}` : fileName`. -/
def downloadRequestUrl (currentPath fileName : List Char) : List Char :=
  "/api/download/".toList ++
    JsStr.encodeURIComponent
      (if currentPath = [] then fileName else currentPath ++ '/' :: fileName)

/-- `handleDownload`'s effect on the message state: any failure (non-OK
response or thrown error) sets the fixed string `'Download failed'`; success
sets nothing. -/
def handleDownloadMessage (o : DownloadOutcome) : Option String :=
  match o with
  | .ok => none
  | .httpErr => some "Download failed"
  | .netErr => some "Download failed"

/-- Request URL of the `onDrop` upload:
`/api/upload${pathParam}` with
`pathParam = currentPath ? `?path=${encodeURIComponent(currentPath)}` : ''`. -/
def uploadRequestUrl (currentPath : List Char) : List Char :=
  "/api/upload".toList ++
    (if currentPath = [] then []
     else "?path=".toList ++ JsStr.encodeURIComponent currentPath)

end EnhancedFileManager

namespace LinkGeneratorForm

/-- The backslash character. -/
def bs : Char := '\\'

/-- The global replace `folderPath.replace(/\\/g, '\\\\')` — in JavaScript
source the pattern matches one backslash and the replacement is the two-
character string of two backslashes, so every backslash is doubled. -/
def doubleBackslashes : List Char → List Char
  | [] => []
  | c :: cs => (if c = bs then [bs, bs] else [c]) ++ doubleBackslashes cs

/-- The normalization step of `handleSubmit`: the replace is applied only
when the typed path contains a backslash. -/
def normalizedPath (p : List Char) : List Char :=
  if p.contains bs then doubleBackslashes p else p

/-- JSON string escaping as performed by `JSON.stringify` on the `folder`
value, for strings without control characters (a path typed in a text field):
backslash and double quote gain a backslash escape, everything else passes
through. -/
def jsonEscapeChar (c : Char) : List Char :=
  if c = bs then [bs, bs] else if c = '"' then [bs, '"'] else [c]

/-- JSON string escaping of a whole string. -/
def jsonEscape : List Char → List Char
  | [] => []
  | c :: cs => jsonEscapeChar c ++ jsonEscape cs

/-- JSON string unescaping as performed by the server's JSON parser on the
wire text: a backslash escape yields its escaped character (the cases
produced by `jsonEscape`: `\\` and `\"`). -/
def jsonUnescape : List Char → List Char
  | [] => []
  | c :: cs =>
    if c = bs then
      match cs with
      | [] => []
      | d :: rest => d :: jsonUnescape rest
    else c :: jsonUnescape cs

/-- The `folder` string value the server's JSON parser hands to the setup
endpoint: the normalized path, serialized by `JSON.stringify` and decoded on
the other side. -/
def serverReceivedFolder (p : List Char) : List Char :=
  jsonUnescape (jsonEscape (normalizedPath p))

end LinkGeneratorForm

namespace Backend

/-- The error taxonomy of the specification (§7). -/
inductive CoreError where
  | AuthError
  | PathTraversalError
  | QuotaExceededError
  | NotFoundError
  | IOError
deriving DecidableEq, Repr

/-- Modelled from the spec: §4.2, a segment equal to a parent reference.
The backend Path Resolver (FastAPI `main.py`) is not among the checked
sources — only this React client is — so the resolver is taken from the
specification's algorithm. -/
def isParentSegment (s : List Char) : Bool :=
  s = ['.', '.']

/-- Modelled from the spec: §4.2, a segment containing a null byte. -/
def hasNullByte (s : List Char) : Bool :=
  s.any fun c => c.toNat = 0

/-- Modelled from the spec: §4.2, a drive-style segment (one containing a
drive separator, as in `C:`). -/
def driveStyleSegment (s : List Char) : Bool :=
  s.any fun c => c = ':'

/-- Modelled from the spec: an absolute-looking prefix — the client-supplied
relative path starts with a path separator. -/
def absoluteLike (p : List Char) : Bool :=
  match p with
  | [] => false
  | c :: _ => c = '/' || c = '\\'

/-- Whether any `/`-separated segment of the path is a parent reference. -/
def hasParentSegment (p : List Char) : Bool :=
  (JsStr.splitOnChar '/' p).any isParentSegment

/-- Modelled from the spec: §4.2's Path Resolver.  The input is split into
segments; any parent-reference segment, null byte, drive-style prefix, or
absolute-looking prefix fails with `PathTraversalError`; otherwise the
cleaned segment list (the canonical relative path inside `root`) is
returned. -/
def resolvePath (p : List Char) : Except CoreError (List (List Char)) :=
  let segs := JsStr.splitOnChar '/' p
  if absoluteLike p ||
      segs.any (fun s => isParentSegment s || hasNullByte s || driveStyleSegment s) then
    .error .PathTraversalError
  else
    .ok (segs.filter fun s => !s.isEmpty && s ≠ ['.'])

/-- Modelled from the spec: every request that touches the filesystem runs
the Path Resolver first; only a resolved path is handed to the operation's
filesystem access. -/
def guardedTouch {α : Type} (touch : List (List Char) → Except CoreError α)
    (p : List Char) : Except CoreError α :=
  match resolvePath p with
  | .error e => .error e
  | .ok segs => touch segs

/-- Modelled from the spec: `GET /api/files` — the Directory Lister's read
runs only on a resolved path. -/
def handleListReq {α : Type} (readDir : List (List Char) → Except CoreError α)
    (p : List Char) : Except CoreError α :=
  guardedTouch readDir p

/-- Modelled from the spec: `POST /api/upload` — the Transfer Orchestrator's
write runs only on a resolved path. -/
def handleUploadReq {α : Type} (writeFile : List (List Char) → Except CoreError α)
    (p : List Char) : Except CoreError α :=
  guardedTouch writeFile p

/-- Modelled from the spec: `GET /api/download` — the file read runs only on
a resolved path. -/
def handleDownloadReq {α : Type} (readFile : List (List Char) → Except CoreError α)
    (p : List Char) : Except CoreError α :=
  guardedTouch readFile p

/-- Modelled from the spec: `GET /api/preview` — the file read runs only on
a resolved path. -/
def handlePreviewReq {α : Type} (readFile : List (List Char) → Except CoreError α)
    (p : List Char) : Except CoreError α :=
  guardedTouch readFile p

end Backend

namespace Spec

/-- The authentication header as the specification words it (§6): HTTP Basic
with the shared secret supplied as both the username and the password field —
`Basic` followed by the base64 encoding of `secret + ':' + secret`. -/
def basicAuthHeader (secret : String) : String :=
  "Basic " ++
    String.mk (JsStr.base64Encode ((secret ++ ":" ++ secret).toList.map Char.toNat))

end Spec

/-! ## Helper lemmas -/

namespace JsStr

theorem splitOnChar_ne_nil (sep : Char) (l : List Char) :
    splitOnChar sep l ≠ [] := by
  cases l with
  | nil => simp [splitOnChar]
  | cons c cs =>
    simp only [splitOnChar]
    cases h : splitOnChar sep cs with
    | nil => simp
    | cons g gs =>
      by_cases hc : c = sep <;> simp [hc]

theorem splitOnChar_no_sep (sep : Char) (l : List Char)
    (h : ∀ c ∈ l, c ≠ sep) : splitOnChar sep l = [l] := by
  induction l with
  | nil => rfl
  | cons c cs ih =>
    have hc : c ≠ sep := h c (by simp)
    have ih2 := ih fun d hd => h d (by simp [hd])
    simp [splitOnChar, ih2, hc]

theorem splitOnChar_append_sep (sep : Char) (xs ys : List Char) :
    splitOnChar sep (xs ++ sep :: ys) =
      splitOnChar sep xs ++ splitOnChar sep ys := by
  induction xs with
  | nil =>
    simp only [List.nil_append]
    cases h : splitOnChar sep ys with
    | nil => exact absurd h (splitOnChar_ne_nil sep ys)
    | cons g gs => simp [splitOnChar, h]
  | cons c cs ih =>
    cases h2 : splitOnChar sep cs with
    | nil => exact absurd h2 (splitOnChar_ne_nil sep cs)
    | cons g gs =>
      cases h3 : splitOnChar sep ys with
      | nil => exact absurd h3 (splitOnChar_ne_nil sep ys)
      | cons g2 gs2 =>
        simp only [List.cons_append, splitOnChar, List.append_eq]
        rw [ih, h2, h3]
        by_cases hc : c = sep <;> simp [hc]

end JsStr

namespace EnhancedFileManager

theorem pathSegments_nil : pathSegments [] = [] := by
  simp [pathSegments, JsStr.splitOnChar]

theorem pathSegments_folderClick (p f : List Char) (hne : f ≠ [])
    (hsep : ∀ c ∈ f, c ≠ '/') :
    pathSegments (handleFolderClick p f) = pathSegments p ++ [f] := by
  by_cases hp : p = []
  · subst hp
    simp [handleFolderClick, pathSegments, JsStr.splitOnChar,
      JsStr.splitOnChar_no_sep '/' f hsep, hne]
  · simp [handleFolderClick, hp, pathSegments, JsStr.splitOnChar_append_sep,
      JsStr.splitOnChar_no_sep '/' f hsep, List.filter_append, hne]

end EnhancedFileManager

/-- C7: the breadcrumb trail is derived purely from the current path — it is
`'Home'` followed by the non-empty `/`-separated segments of the path in
order; selecting the breadcrumb at index `i` (index 0 being Home/root)
replaces the current path by the join of the first `i` segments; hence
entering a folder and then selecting the previously-last breadcrumb restores
the prior path (for canonical current paths, which are the only ones the
component produces, and folder names that are non-empty and free of
separators). -/
theorem C7_breadcrumb_round_trip (p f : List Char)
    (hcanon : p = JsStr.joinSlash (EnhancedFileManager.pathSegments p))
    (hne : f ≠ []) (hsep : ∀ c ∈ f, c ≠ '/') :
    EnhancedFileManager.breadcrumbs p =
      "Home".toList :: EnhancedFileManager.pathSegments p ∧
    (∀ i, EnhancedFileManager.navigateBreadcrumb p i =
      JsStr.joinSlash ((EnhancedFileManager.pathSegments p).take i)) ∧
    EnhancedFileManager.navigateBreadcrumb
      (EnhancedFileManager.handleFolderClick p f)
      ((EnhancedFileManager.breadcrumbs p).length - 1) = p := by
  refine ⟨rfl, fun i => rfl, ?_⟩
  have hseg := EnhancedFileManager.pathSegments_folderClick p f hne hsep
  have hlen : (EnhancedFileManager.breadcrumbs p).length - 1 =
      (EnhancedFileManager.pathSegments p).length := by
    simp [EnhancedFileManager.breadcrumbs]
  rw [EnhancedFileManager.navigateBreadcrumb, hseg, hlen,
    List.take_append_of_le_length (Nat.le_refl _), List.take_length]
  exact hcanon.symm

/-- Witness for C7 at the concrete path `a/b` and folder `c`: the hypotheses
hold and selecting the previously-last breadcrumb after entering `c` returns
to `a/b`. -/
theorem C7_breadcrumb_round_trip_witness :
    ("a/b".toList = JsStr.joinSlash (EnhancedFileManager.pathSegments "a/b".toList)) ∧
    EnhancedFileManager.navigateBreadcrumb
      (EnhancedFileManager.handleFolderClick "a/b".toList "c".toList)
      ((EnhancedFileManager.breadcrumbs "a/b".toList).length - 1) = "a/b".toList :=
  ⟨by decide,
   (C7_breadcrumb_round_trip "a/b".toList "c".toList (by decide) (by decide)
      (by decide)).2.2⟩

namespace Backend

theorem resolvePath_rejects (p : List Char)
    (h : hasParentSegment p = true ∨ absoluteLike p = true) :
    resolvePath p = .error .PathTraversalError := by
  unfold resolvePath
  rcases h with h | h
  · have hany : (JsStr.splitOnChar '/' p).any
        (fun s => isParentSegment s || hasNullByte s || driveStyleSegment s) = true := by
      rw [List.any_eq_true]
      rw [hasParentSegment, List.any_eq_true] at h
      obtain ⟨s, hs, hps⟩ := h
      exact ⟨s, hs, by simp [hps]⟩
    simp [hany]
  · simp [h]

end Backend

/-- C1: any client-supplied relative path containing a parent-reference
(`..`) segment or an absolute-looking prefix is rejected with
`PathTraversalError` by every endpoint that touches the filesystem (list,
upload, download, preview) before any filesystem access runs — the result is
the error regardless of the filesystem-access functions — and in particular
the path the client forwards verbatim in a download URL (`item.path`) is
rejected when it escapes root. -/
theorem C1_path_traversal_rejected {α : Type} (p : List Char)
    (h : Backend.hasParentSegment p = true ∨ Backend.absoluteLike p = true)
    (rd wr dl pv : List (List Char) → Except Backend.CoreError α) :
    Backend.handleListReq rd p = .error .PathTraversalError ∧
    Backend.handleUploadReq wr p = .error .PathTraversalError ∧
    Backend.handleDownloadReq dl p = .error .PathTraversalError ∧
    Backend.handlePreviewReq pv p = .error .PathTraversalError ∧
    (∀ item : FileItem, (FileManagementPage.downloadForwardedPath item).toList = p →
      Backend.handleDownloadReq dl
        (FileManagementPage.downloadForwardedPath item).toList =
        .error .PathTraversalError) := by
  have hres := Backend.resolvePath_rejects p h
  refine ⟨?_, ?_, ?_, ?_, ?_⟩
  · simp [Backend.handleListReq, Backend.guardedTouch, hres]
  · simp [Backend.handleUploadReq, Backend.guardedTouch, hres]
  · simp [Backend.handleDownloadReq, Backend.guardedTouch, hres]
  · simp [Backend.handlePreviewReq, Backend.guardedTouch, hres]
  · intro item hitem
    rw [hitem]
    simp [Backend.handleDownloadReq, Backend.guardedTouch, hres]

/-- Witness for C1 at the concrete traversal path `../../etc/passwd`: the
hypothesis holds and the download endpoint rejects it with
`PathTraversalError` even over a filesystem that would answer every read. -/
theorem C1_path_traversal_rejected_witness :
    (Backend.hasParentSegment "../../etc/passwd".toList = true ∨
      Backend.absoluteLike "../../etc/passwd".toList = true) ∧
    Backend.handleDownloadReq (fun _ => (Except.ok 0 : Except Backend.CoreError Nat))
      "../../etc/passwd".toList = .error .PathTraversalError := by
  have h : Backend.hasParentSegment "../../etc/passwd".toList = true ∨
      Backend.absoluteLike "../../etc/passwd".toList = true := Or.inl (by decide)
  exact ⟨h,
    (C1_path_traversal_rejected "../../etc/passwd".toList h
      (fun _ => Except.ok 0) (fun _ => Except.ok 0)
      (fun _ => Except.ok 0) (fun _ => Except.ok 0)).2.2.1⟩

namespace FileManagementPage

theorem uploadLoop_go {α : Type} (files : List (α × Bool)) (acc : Nat × Nat × List α) :
    files.foldl uploadStep acc =
      (acc.1 + (files.filter fun fo => fo.2).length,
       acc.2.1 + (files.filter fun fo => !fo.2).length,
       acc.2.2 ++ files.map Prod.fst) := by
  induction files generalizing acc with
  | nil => simp
  | cons fo rest ih =>
    cases hb : fo.2 <;>
      simp [uploadStep, hb, ih, List.filter_cons, Nat.add_assoc, Nat.add_comm 1]

theorem uploadLoop_spec {α : Type} (files : List (α × Bool)) :
    uploadLoop files =
      ((files.filter fun fo => fo.2).length,
       (files.filter fun fo => !fo.2).length,
       files.map Prod.fst) := by
  rw [uploadLoop, uploadLoop_go]
  simp

end FileManagementPage

/-- C2: the shared upload loop of `onDrop` and `handleFileSelect` attempts
each of the N files independently and exactly once (the attempted sequence is
the full file list in order, whatever the outcomes), and the aggregated
result reports `successCount = N - M` and `failCount = M` where M is the
number of failing files, so `successCount + failCount = N`. -/
theorem C2_batch_upload_counts {α : Type} (files : List (α × Bool)) :
    (FileManagementPage.uploadLoop files).2.2 = files.map Prod.fst ∧
    (FileManagementPage.uploadLoop files).1 =
      files.length - (files.filter fun fo => !fo.2).length ∧
    (FileManagementPage.uploadLoop files).2.1 =
      (files.filter fun fo => !fo.2).length ∧
    (FileManagementPage.uploadLoop files).1 +
      (FileManagementPage.uploadLoop files).2.1 = files.length := by
  have hsum := (List.length_eq_length_filter_add (l := files) fun fo => fo.2).symm
  rw [FileManagementPage.uploadLoop_spec]
  refine ⟨rfl, ?_, rfl, hsum⟩
  omega

/-- C3: every authenticated request the client issues — the listing fetch,
both upload loops, and the download fetch of `FileManagementPage`, and the
shared header memo of `EnhancedFileManager` — carries an Authorization header
equal to `'Basic '` followed by the base64 encoding of
`secret + ':' + secret`: the single shared secret fills both the username and
the password field of HTTP Basic authentication. -/
theorem C3_basic_auth_header_all_sites (pwd : String) :
    FileManagementPage.fetchFilesAuthHeader pwd = Spec.basicAuthHeader pwd ∧
    FileManagementPage.onDropAuthHeader pwd = Spec.basicAuthHeader pwd ∧
    FileManagementPage.fileSelectAuthHeader pwd = Spec.basicAuthHeader pwd ∧
    FileManagementPage.downloadAuthHeader pwd = Spec.basicAuthHeader pwd ∧
    EnhancedFileManager.authHeader pwd = Spec.basicAuthHeader pwd :=
  ⟨rfl, rfl, rfl, rfl, rfl⟩

/-- C4: evaluation of the upload URL builders at the failing input.  While
the client browses directory `docs`, `FileManagementPage` sends its uploads
to the bare `/api/upload` — the `path` query parameter is dropped for every
current path, so the file lands in the root — whereas the parallel
`EnhancedFileManager` draft does send `/api/upload?path=docs`, matching the
contract `POST /api/upload?path=<relative>`. -/
theorem C4_upload_path_dropped :
    FileManagementPage.uploadRequestUrl "docs" = "/api/upload" ∧
    (∀ p : String, FileManagementPage.uploadRequestUrl p = "/api/upload") ∧
    EnhancedFileManager.uploadRequestUrl "docs".toList =
      "/api/upload?path=docs".toList :=
  ⟨rfl, fun _ => rfl, by decide⟩

/-- C5 counterexample: a regular file of category `text` is rendered with the
download-only fallback even though its category is not `other`, refuting
"a file falls back to download-only rendering exactly when its category is
`other`". -/
theorem C5_text_fallback_counterexample :
    FileManagementPage.renderPreviewContent
      { name := "notes.txt", path := "notes.txt", is_dir := false, size := 1,
        modified := 0, type := "text" } =
      FileManagementPage.PreviewRendering.downloadOnly ∧
    FileManagementPage.clientCategory "text" ≠ FileManagementPage.Category.other :=
  ⟨rfl, by decide⟩

/-- C5 amended: every file is classified into exactly one category of
{image, pdf, audio, video, text, other}; a file falls back to the
download-only rendering exactly when its category has no inline rendering
strategy — that is, when it is `text` or `other` — and the `/api/preview`
endpoint is requested exactly for the inline categories
{image, pdf, video, audio}; the context-menu Preview entry likewise appears
only when an inline preview request exists. -/
theorem C5_preview_fallback_amended (item : FileItem) :
    (∃! c : FileManagementPage.Category,
      FileManagementPage.clientCategory item.type = c) ∧
    (FileManagementPage.renderPreviewContent item =
        FileManagementPage.PreviewRendering.downloadOnly ↔
      (FileManagementPage.clientCategory item.type = .text ∨
       FileManagementPage.clientCategory item.type = .other)) ∧
    (FileManagementPage.previewRequestUrl
        (FileManagementPage.renderPreviewContent item) =
      if FileManagementPage.clientCategory item.type = .text ∨
          FileManagementPage.clientCategory item.type = .other then none
      else some ("/api/preview/" ++ item.path)) ∧
    (FileManagementPage.contextMenuShowsPreview item = true →
      FileManagementPage.previewRequestUrl
        (FileManagementPage.renderPreviewContent item) =
        some ("/api/preview/" ++ item.path)) := by
  refine ⟨⟨FileManagementPage.clientCategory item.type, rfl, fun y hy => hy.symm⟩,
    ?_⟩
  by_cases h1 : item.type = "image"
  · simp [FileManagementPage.renderPreviewContent, FileManagementPage.clientCategory,
      FileManagementPage.previewRequestUrl, FileManagementPage.contextMenuShowsPreview,
      FileManagementPage.previewSrc, h1]
  by_cases h2 : item.type = "pdf"
  · simp [FileManagementPage.renderPreviewContent, FileManagementPage.clientCategory,
      FileManagementPage.previewRequestUrl, FileManagementPage.contextMenuShowsPreview,
      FileManagementPage.previewSrc, h2]
  by_cases h3 : item.type = "video"
  · simp [FileManagementPage.renderPreviewContent, FileManagementPage.clientCategory,
      FileManagementPage.previewRequestUrl, FileManagementPage.contextMenuShowsPreview,
      FileManagementPage.previewSrc, h3]
  by_cases h4 : item.type = "audio"
  · simp [FileManagementPage.renderPreviewContent, FileManagementPage.clientCategory,
      FileManagementPage.previewRequestUrl, FileManagementPage.contextMenuShowsPreview,
      FileManagementPage.previewSrc, h4]
  by_cases h5 : item.type = "text"
  · simp [FileManagementPage.renderPreviewContent, FileManagementPage.clientCategory,
      FileManagementPage.previewRequestUrl, FileManagementPage.contextMenuShowsPreview,
      FileManagementPage.previewSrc, h5]
  · simp [FileManagementPage.renderPreviewContent, FileManagementPage.clientCategory,
      FileManagementPage.previewRequestUrl, FileManagementPage.contextMenuShowsPreview,
      FileManagementPage.previewSrc, h1, h2, h3, h4, h5]

/-- Witness for the amended C5 at a concrete `text` item: the context-menu
hypothesis branch is exercised on an `image` item, for which the Preview
entry is shown and the preview request exists. -/
theorem C5_preview_fallback_amended_witness :
    FileManagementPage.contextMenuShowsPreview
      { name := "a.png", path := "a.png", is_dir := false, size := 1,
        modified := 0, type := "image" } = true ∧
    FileManagementPage.previewRequestUrl
      (FileManagementPage.renderPreviewContent
        { name := "a.png", path := "a.png", is_dir := false, size := 1,
          modified := 0, type := "image" }) =
      some ("/api/preview/" ++ "a.png") :=
  ⟨by decide,
   (C5_preview_fallback_amended
      { name := "a.png", path := "a.png", is_dir := false, size := 1,
        modified := 0, type := "image" }).2.2.2 (by decide)⟩

/-- C6: for any two failing download requests — whatever item was requested,
whatever kind of failure occurred, and whatever state the page was in — the
user-facing message set is the same fixed string `'Download failed'` in both
file-manager components; the message does not depend on the requested path,
so no filesystem path can leak through it. -/
theorem C6_download_error_message_uniform
    (item₁ item₂ : FileItem) (o₁ o₂ : DownloadOutcome)
    (s₁ s₂ : FileManagementPage.PageState)
    (h₁ : o₁ ≠ DownloadOutcome.ok) (h₂ : o₂ ≠ DownloadOutcome.ok) :
    (FileManagementPage.handleDownload item₁ o₁ s₁).message = "Download failed" ∧
    (FileManagementPage.handleDownload item₁ o₁ s₁).message =
      (FileManagementPage.handleDownload item₂ o₂ s₂).message ∧
    EnhancedFileManager.handleDownloadMessage o₁ = some "Download failed" ∧
    EnhancedFileManager.handleDownloadMessage o₁ =
      EnhancedFileManager.handleDownloadMessage o₂ := by
  cases o₁ with
  | ok => exact absurd rfl h₁
  | httpErr =>
    cases o₂ with
    | ok => exact absurd rfl h₂
    | httpErr => exact ⟨rfl, rfl, rfl, rfl⟩
    | netErr => exact ⟨rfl, rfl, rfl, rfl⟩
  | netErr =>
    cases o₂ with
    | ok => exact absurd rfl h₂
    | httpErr => exact ⟨rfl, rfl, rfl, rfl⟩
    | netErr => exact ⟨rfl, rfl, rfl, rfl⟩

/-- Witness for C6 at two concrete failing downloads of different paths and
different error kinds: both messages are the fixed `'Download failed'`. -/
theorem C6_download_error_message_uniform_witness :
    (DownloadOutcome.httpErr ≠ DownloadOutcome.ok) ∧
    (DownloadOutcome.netErr ≠ DownloadOutcome.ok) ∧
    (FileManagementPage.handleDownload
      { name := "a.txt", path := "a.txt", is_dir := false, size := 1,
        modified := 0, type := "text" }
      DownloadOutcome.httpErr FileManagementPage.initialState).message =
      "Download failed" :=
  ⟨by decide, by decide,
   (C6_download_error_message_uniform
      { name := "a.txt", path := "a.txt", is_dir := false, size := 1,
        modified := 0, type := "text" }
      { name := "b.pdf", path := "secret/b.pdf", is_dir := false, size := 2,
        modified := 0, type := "pdf" }
      DownloadOutcome.httpErr DownloadOutcome.netErr
      FileManagementPage.initialState FileManagementPage.initialState
      (by decide) (by decide)).1⟩

/-- C8: after a batch upload in `FileManagementPage`, the listing is
re-fetched exactly when at least one file succeeded; when every file fails
the message is exactly `'Upload failed'`, no re-fetch occurs, and the
displayed items, path, breadcrumbs, and storage stats are unchanged — the
resulting state is the old one with only the message replaced, independent of
what a re-fetch would have returned. -/
theorem C8_refetch_iff_any_success (files : List (String × Bool))
    (r : FetchResult) (s : FileManagementPage.PageState) :
    ((FileManagementPage.handleUploadBatch files r s).2 = true ↔
      0 < (FileManagementPage.uploadLoop files).1) ∧
    (0 < (FileManagementPage.uploadLoop files).1 ↔
      files.any (fun fo => fo.2) = true) ∧
    ((FileManagementPage.uploadLoop files).1 = 0 →
      FileManagementPage.handleUploadBatch files r s =
        ({ s with message := "Upload failed" }, false)) := by
  refine ⟨?_, ?_, ?_⟩
  · unfold FileManagementPage.handleUploadBatch
    by_cases h : 0 < (FileManagementPage.uploadLoop files).1 <;> simp [h]
  · rw [FileManagementPage.uploadLoop_spec]
    simp [List.length_pos, List.filter_eq_nil_iff, List.any_eq_true]
  · intro h
    unfold FileManagementPage.handleUploadBatch
    simp [h]

/-- Witness for C8 at a concrete batch in which both files fail: the loop
reports zero successes and the handler only replaces the message, issuing no
fetch. -/
theorem C8_refetch_iff_any_success_witness :
    (FileManagementPage.uploadLoop [("a.txt", false), ("b.txt", false)]).1 = 0 ∧
    FileManagementPage.handleUploadBatch [("a.txt", false), ("b.txt", false)]
      FetchResult.err FileManagementPage.initialState =
      ({ FileManagementPage.initialState with message := "Upload failed" }, false) :=
  ⟨rfl,
   (C8_refetch_iff_any_success [("a.txt", false), ("b.txt", false)]
      FetchResult.err FileManagementPage.initialState).2.2 rfl⟩

/-- C9: in `FileManagementPage`, once `authenticated` is true no operation of
the page resets it to false, and a failed listing fetch leaves the displayed
items, current path, breadcrumbs, and storage stats unchanged — the resulting
state is the old one with only the message replaced. -/
theorem C9_authenticated_monotone_and_fetch_failure_frame :
    (∀ (a : FileManagementPage.Action) (s : FileManagementPage.PageState),
      s.authenticated = true →
      (FileManagementPage.step a s).authenticated = true) ∧
    (∀ (s : FileManagementPage.PageState) (path : String),
      FileManagementPage.step
        (FileManagementPage.Action.navigateToFolder path FetchResult.err) s =
        { s with message :=
            if s.authenticated then "Failed to load files. Please check your connection."
            else "Authentication failed. Please check your password." }) := by
  constructor
  · intro a s h
    cases a with
    | setPassword p => simpa [FileManagementPage.step] using h
    | login r =>
      by_cases hp : s.password = ""
      · simpa [FileManagementPage.step, hp] using h
      · cases r <;>
          simp [FileManagementPage.step, hp, FileManagementPage.fetchFiles, h]
    | navigateToFolder path r =>
      cases r <;> simp [FileManagementPage.step, FileManagementPage.fetchFiles, h]
    | uploadBatch files r =>
      by_cases hs : 0 < (FileManagementPage.uploadLoop files).1
      · cases r <;>
          simp [FileManagementPage.step, FileManagementPage.handleUploadBatch, hs,
            FileManagementPage.fetchFiles, h]
      · simp [FileManagementPage.step, FileManagementPage.handleUploadBatch, hs, h]
    | download item o =>
      cases o <;> simp [FileManagementPage.step, FileManagementPage.handleDownload, h]
    | copyShareUrl => simpa [FileManagementPage.step] using h
  · intro s path
    rfl

/-- Witness for C9: a concrete authenticated state stays authenticated across
a concrete operation, and a concrete failed listing fetch only rewrites the
message. -/
theorem C9_authenticated_monotone_witness :
    ({ FileManagementPage.initialState with
        authenticated := true } : FileManagementPage.PageState).authenticated
      = true ∧
    (FileManagementPage.step FileManagementPage.Action.copyShareUrl
      { FileManagementPage.initialState with
        authenticated := true }).authenticated = true ∧
    FileManagementPage.step
      (FileManagementPage.Action.navigateToFolder "docs" FetchResult.err)
      { FileManagementPage.initialState with authenticated := true } =
      { FileManagementPage.initialState with
        authenticated := true,
        message := "Failed to load files. Please check your connection." } :=
  ⟨rfl,
   C9_authenticated_monotone_and_fetch_failure_frame.1
     FileManagementPage.Action.copyShareUrl
     { FileManagementPage.initialState with authenticated := true } rfl,
   C9_authenticated_monotone_and_fetch_failure_frame.2
     { FileManagementPage.initialState with authenticated := true } "docs"⟩

namespace LinkGeneratorForm

theorem jsonUnescape_jsonEscape (s : List Char) :
    jsonUnescape (jsonEscape s) = s := by
  induction s with
  | nil => rfl
  | cons c cs ih =>
    by_cases h1 : c = bs
    · simp [jsonEscape, jsonEscapeChar, h1, jsonUnescape, ih]
    · by_cases h2 : c = '"'
      · simp [jsonEscape, jsonEscapeChar, h1, h2, jsonUnescape, ih]
      · rw [jsonEscape, jsonEscapeChar, if_neg h1, if_neg h2]
        rw [List.singleton_append, jsonUnescape.eq_def]
        simp [h1, ih]

theorem doubleBackslashes_of_not_contains (p : List Char)
    (h : p.contains bs = false) : doubleBackslashes p = p := by
  induction p with
  | nil => rfl
  | cons c cs ih =>
    simp only [List.contains_cons, Bool.or_eq_false_iff] at h
    have hc : ¬c = bs := by
      intro hc
      subst hc
      simp at h
    simp [doubleBackslashes, hc, ih h.2]

theorem length_doubleBackslashes (p : List Char) :
    (doubleBackslashes p).length = p.length + p.count bs := by
  induction p with
  | nil => rfl
  | cons c cs ih =>
    by_cases h : c = bs <;>
      simp [doubleBackslashes, h, ih, List.count_cons] <;> omega

end LinkGeneratorForm

/-- C10: the `folder` value the setup request carries to the server equals
the typed path with every backslash doubled — the explicit
`replace(/\\/g, '\\\\')` composes with `JSON.stringify`'s escaping, which the
server's JSON parse undoes — so a path containing backslashes reaches the
server-side `ShareConfig` root with doubled backslashes rather than as typed,
while a path without backslashes is transmitted unchanged. -/
theorem C10_backslash_doubling (p : List Char) :
    LinkGeneratorForm.serverReceivedFolder p =
      LinkGeneratorForm.doubleBackslashes p ∧
    (p.contains LinkGeneratorForm.bs = true →
      LinkGeneratorForm.serverReceivedFolder p ≠ p) ∧
    (p.contains LinkGeneratorForm.bs = false →
      LinkGeneratorForm.serverReceivedFolder p = p) := by
  have hmain : LinkGeneratorForm.serverReceivedFolder p =
      LinkGeneratorForm.doubleBackslashes p := by
    unfold LinkGeneratorForm.serverReceivedFolder LinkGeneratorForm.normalizedPath
    by_cases h : p.contains LinkGeneratorForm.bs = true
    · rw [if_pos h, LinkGeneratorForm.jsonUnescape_jsonEscape]
    · have hf : p.contains LinkGeneratorForm.bs = false := by
        simpa using h
      rw [if_neg h, LinkGeneratorForm.jsonUnescape_jsonEscape,
        LinkGeneratorForm.doubleBackslashes_of_not_contains p hf]
  refine ⟨hmain, ?_, ?_⟩
  · intro h hcontra
    rw [hmain] at hcontra
    have hmem : LinkGeneratorForm.bs ∈ p := by
      simpa using h
    have hpos : 0 < p.count LinkGeneratorForm.bs := List.count_pos_iff.mpr hmem
    have hlen := congrArg List.length hcontra
    rw [LinkGeneratorForm.length_doubleBackslashes] at hlen
    omega
  · intro h
    rw [hmain, LinkGeneratorForm.doubleBackslashes_of_not_contains p h]

/-- Witness for C10 at the concrete typed paths `C:\temp` (one backslash,
received doubled, hence not as typed) and `/home/user` (no backslash,
received unchanged). -/
theorem C10_backslash_doubling_witness :
    ("C:\\temp".toList.contains LinkGeneratorForm.bs = true) ∧
    LinkGeneratorForm.serverReceivedFolder "C:\\temp".toList ≠ "C:\\temp".toList ∧
    ("/home/user".toList.contains LinkGeneratorForm.bs = false) ∧
    LinkGeneratorForm.serverReceivedFolder "/home/user".toList =
      "/home/user".toList :=
  ⟨by decide, (C10_backslash_doubling "C:\\temp".toList).2.1 (by decide),
   by decide, (C10_backslash_doubling "/home/user".toList).2.2 (by decide)⟩
